import Mathlib

set_option linter.unusedVariables false

/-!
Verification development for the tmux-layout repository.

The definitions below are a shallow embedding of the repository's core:

* working-directory values (`src/cwd.rs`),
* the configuration data model and its (de)serialisation glue
  (`src/config/model.rs`),
* the tmux command builder (`src/tmux/command.rs`),
* the layout-descriptor parser and the geometry-to-split converter
  (`src/tmux/layout.rs`),
* the tabular state-line parser (`src/tmux/import.rs`).

Rust `u32` values are modelled as `Nat` (the embedded parsers perform the
explicit `≤ 2^32 - 1` overflow checks that `nom`'s `u32` and `str::parse`
perform; the command builder's window counter is incremented with an
unchecked `u32` addition that wraps at `2^32`, modelled by an explicit
`% 2^32`).  `f32` arithmetic in the geometry converter
only ever handles integer values (widths, heights and their sums), which
`f32` represents exactly at the magnitudes involved, so it is modelled by
exact integer arithmetic with an explicit round-half-away-from-zero
division.  Strings are Lean `String`s; `OsStr` arguments are strings.
-/

/-! ## Working-directory values (`src/cwd.rs`) -/

/-- Working-directory value: `Cwd` from `src/cwd.rs` holds an optional path,
modelled as an optional path string. -/
abbrev Cwd := Option String

/-- Unix `Path::is_absolute`: the path has a root, i.e. starts with `/`. -/
def pathIsAbsolute (p : String) : Bool := p.data.head? = some '/'

/-- Unix `Path::join` for a relative right-hand component: append with a
separator unless the left side is empty or already ends in a separator. -/
def pathJoin (p c : String) : String :=
  if p = "" then c
  else if p.data.getLast? = some '/' then p ++ c
  else p ++ "/" ++ c

namespace Cwd

/-- `Cwd::is_empty`: the path is absent or has no components (empty string). -/
def is_empty : Cwd → Bool
  | none => true
  | some p => p = ""

/-- `Cwd::to_path`. -/
def to_path : Cwd → Option String := id

/-- `Cwd::joined` from `src/cwd.rs` lines 17-31, translated clause by
clause: an absent `other` keeps `self`; an absolute `other` wins; a
relative `other` is joined onto `self` when `self` is present. -/
def joined (self other : Cwd) : Cwd :=
  match other with
  | none => self
  | some path =>
    if pathIsAbsolute path then some path
    else
      match self with
      | none => some path
      | some pre => some (pathJoin pre path)

end Cwd

/-- Specification-side restatement of the `join` operation, following the
wording of the claim: returns `child` when it is present and absolute;
returns `parent` joined with `child` when both are present and `child` is
relative; returns `parent` when `child` is absent; returns `child` when
`parent` is absent. -/
def joinedSpec (parent child : Cwd) : Cwd :=
  match child with
  | some c =>
    if pathIsAbsolute c then some c
    else
      match parent with
      | some p => some (pathJoin p c)
      | none => some c
  | none => parent

/-! ## Configuration data model (`src/config/model.rs`) -/

/-- Leaf pane of the split tree (`Pane` in `src/config/model.rs`). -/
structure Pane where
  cwd : Cwd := none
  active : Bool := false
  shell_command : Option String := none
  send_keys : Option (List String) := none
deriving DecidableEq, Repr

/-- Split tree (`Split` in `src/config/model.rs`).  The Rust side wrappers
`HSplitPart { width, split }` and `VSplitPart { height, split }` are inlined
as (size hint, child) argument pairs of the `h` / `v` constructors. -/
inductive Split where
  | pane (p : Pane)
  | h (leftWidth : Option String) (leftSplit : Split)
      (rightWidth : Option String) (rightSplit : Split)
  | v (topHeight : Option String) (topSplit : Split)
      (bottomHeight : Option String) (bottomSplit : Split)
deriving DecidableEq, Repr

instance : Inhabited Split := ⟨Split.pane {}⟩

/-- Pre-order pane list of a split: left/top subtree first, then
right/bottom subtree; leaves in tmux index order.  This is the order the
stack-based `Panes` iterator of `src/config/model.rs` produces (see
`panesStack_singleton` below). -/
def Split.pane_iter : Split → List Pane
  | .pane p => [p]
  | .h _ ls _ rs => ls.pane_iter ++ rs.pane_iter
  | .v _ ts _ bs => ts.pane_iter ++ bs.pane_iter

/-- Stack-based pane iteration exactly as the `Panes` iterator of
`src/config/model.rs` runs it: pop a split; a pane is yielded; for a split
the right/bottom child is pushed before the left/top child. -/
def panesStack : List Split → List Pane
  | [] => []
  | .pane p :: rest => p :: panesStack rest
  | .h _ ls _ rs :: rest => panesStack (ls :: rs :: rest)
  | .v _ ts _ bs :: rest => panesStack (ts :: bs :: rest)
termination_by stack => (stack.map (fun s => sizeOf s)).sum
decreasing_by all_goals (simp_wf; try omega)

/-- Window (`Window` in `src/config/model.rs`); `root_split` is the
`RootSplit` newtype, which simply wraps a `Split`. -/
structure Window where
  name : Option String := none
  cwd : Cwd := none
  active : Bool := false
  root_split : Split := .pane {}
deriving DecidableEq, Repr

/-- Session (`Session` in `src/config/model.rs`). -/
structure Session where
  name : String
  cwd : Cwd := none
  windows : List Window := []
deriving DecidableEq, Repr

/-- Include-free configuration (`Config = ConfigL<NoIncludes>` in
`src/config/model.rs`; the `NoIncludes` marker field carries no data). -/
structure Config where
  selected_session : Option String := none
  sessions : List Session := []
  windows : List Window := []
deriving DecidableEq, Repr

/-! ## Serialisation glue (`serialization` module of `src/config/model.rs`)

A `Split` travels through the intermediate flat `SplitMap`; the serde
attributes then omit defaulted fields on serialisation
(`skip_serializing_if`) and fill missing fields with their defaults on
deserialisation.  `HSplitPart` / `VSplitPart` are modelled as
(size hint, child split) pairs, exactly as in `Split` above. -/

/-- Flat intermediate map `serialization::SplitMap`. -/
structure SplitMap where
  left : Option (Option String × Split) := none
  right : Option (Option String × Split) := none
  top : Option (Option String × Split) := none
  bottom : Option (Option String × Split) := none
  cwd : Cwd := none
  active : Bool := false
  shell_command : Option String := none
  send_keys : Option (List String) := none
deriving DecidableEq

/-- Default `HSplitPart` / `VSplitPart`: no size hint, default pane. -/
def defaultPart : Option String × Split := (none, Split.pane {})

/-- `impl From<SplitMap> for Split`: any `left`/`right` key makes an `H`
split (missing side defaulted), else any `top`/`bottom` key makes a `V`
split, else the map's leaf fields make a `Pane`. -/
def SplitMap.toSplit (m : SplitMap) : Split :=
  if m.left.isSome || m.right.isSome then
    let l := m.left.getD defaultPart
    let r := m.right.getD defaultPart
    Split.h l.1 l.2 r.1 r.2
  else if m.top.isSome || m.bottom.isSome then
    let t := m.top.getD defaultPart
    let b := m.bottom.getD defaultPart
    Split.v t.1 t.2 b.1 b.2
  else
    Split.pane ⟨m.cwd, m.active, m.shell_command, m.send_keys⟩

/-- `impl From<Split> for SplitMap`. -/
def Split.toMap : Split → SplitMap
  | .pane p =>
      { cwd := p.cwd, active := p.active,
        shell_command := p.shell_command, send_keys := p.send_keys }
  | .h lw ls rw rs => { left := some (lw, ls), right := some (rw, rs) }
  | .v tw ts bw bs => { top := some (tw, ts), bottom := some (bw, bs) }

/-- The `RootSplit` serialisation path zeroes `active` when the root is a
bare pane (`impl From<RootSplit> for SplitMap`). -/
def rootZeroActive : Split → Split
  | .pane p => .pane { p with active := false }
  | s => s

/-- `impl From<RootSplit> for SplitMap`. -/
def rootSplitToMap (s : Split) : SplitMap := (rootZeroActive s).toMap

/-- `serialization::is_default_size`: a missing size or the string
`"50%"`. -/
def is_default_size : Option String → Bool
  | none => true
  | some size => size = "50%"

/-- Net serialise-then-deserialise effect on a size hint: the hint is
omitted when `is_default_size` holds and a missing hint deserialises to
`none`. -/
def serdeSize (s : Option String) : Option String :=
  if is_default_size s then none else s

/-- Net serialise-then-deserialise effect on a `cwd` field: omitted when
`Cwd::is_empty` holds and a missing field deserialises to an absent
path.  (Shell expansion at deserialisation is not modelled; the round-trip
theorems are stated for paths that expansion leaves unchanged.) -/
def serdeCwd (c : Cwd) : Cwd := if c.is_empty then none else c

/-- Serde field normalisation of a `SplitMap`: each side part's size hint
goes through `serdeSize` and its flattened child split through the given
function; the `cwd` field goes through `serdeCwd`.  `active` (skipped when
`false`, defaulting to `false`) and the two `Option` fields (skipped when
`none`, defaulting to `none`) round-trip unchanged. -/
def SplitMap.wire (f : Option String × Split → Option String × Split)
    (m : SplitMap) : SplitMap :=
  { m with
    left := m.left.map f, right := m.right.map f,
    top := m.top.map f, bottom := m.bottom.map f,
    cwd := serdeCwd m.cwd }

/-- Serialise-then-deserialise round trip of a non-root `Split` through
`SplitMap` and the serde attributes, computed structurally.
`roundtrip_eq_wire` below proves it equal to the composite
`toSplit ∘ wire ∘ toMap` of the source functions. -/
def Split.roundtrip : Split → Split
  | .pane p => .pane { p with cwd := serdeCwd p.cwd }
  | .h lw ls rw rs => .h (serdeSize lw) ls.roundtrip (serdeSize rw) rs.roundtrip
  | .v tw ts bw bs => .v (serdeSize tw) ts.roundtrip (serdeSize bw) bs.roundtrip

theorem roundtrip_eq_wire (s : Split) :
    s.roundtrip =
      SplitMap.toSplit
        (SplitMap.wire (fun pr => (serdeSize pr.1, Split.roundtrip pr.2)) s.toMap) := by
  cases s <;>
    simp [Split.roundtrip, Split.toMap, SplitMap.wire, SplitMap.toSplit]

/-- Round trip of a window's root split.  `root_split` is
`#[serde(flatten)]`-ed into the window map, so the flattened `SplitMap`'s
`cwd` and `active` keys live in the same key space as the window's own
`cwd` and `active` fields: on serialisation the root-pane `active` flag is
zeroed (`rootZeroActive`), and on deserialisation a `cwd` key is captured
by the `Window` struct field, never by the flattened map — a bare root
pane therefore always deserialises with an absent `cwd` and a `false`
`active` flag. -/
def rootRoundtrip : Split → Split
  | .pane p =>
      .pane { cwd := none, active := false,
              shell_command := p.shell_command, send_keys := p.send_keys }
  | .h lw ls rw rs => .h (serdeSize lw) ls.roundtrip (serdeSize rw) rs.roundtrip
  | .v tw ts bw bs => .v (serdeSize tw) ts.roundtrip (serdeSize bw) bs.roundtrip

/-- The `cwd` key the flattened root split contributes to the window's
serialised map: only a bare root pane with a non-empty `cwd` emits one. -/
def rootCwdOut : Split → Cwd
  | .pane p => serdeCwd p.cwd
  | _ => none

/-- Serialise-then-deserialise round trip of a `Window`.  When both the
window itself and a bare root pane would emit a `cwd` key the serialised
map holds the same key twice and the codecs reject it (`none`); otherwise
the single `cwd` key (if any) is captured by the window's own field. -/
def Window.roundtrip (w : Window) : Option Window :=
  let winCwd := serdeCwd w.cwd
  let paneCwd := rootCwdOut w.root_split
  if winCwd.isSome && paneCwd.isSome then none
  else
    some { name := w.name,
           cwd := winCwd.orElse (fun _ => paneCwd),
           active := w.active,
           root_split := rootRoundtrip w.root_split }

/-- Element-wise round trip of a serialised window list (a serde `Vec`
serialises and deserialises element by element). -/
def windowsRoundtrip : List Window → Option (List Window)
  | [] => some []
  | w :: rest => do
      let w2 ← w.roundtrip
      let rest2 ← windowsRoundtrip rest
      some (w2 :: rest2)

/-- Serialise-then-deserialise round trip of a `Session` (the `name` field
is always serialised; `cwd` is skipped when empty). -/
def Session.roundtrip (s : Session) : Option Session := do
  let ws ← windowsRoundtrip s.windows
  some { name := s.name, cwd := serdeCwd s.cwd, windows := ws }

/-- Element-wise round trip of a serialised session list. -/
def sessionsRoundtrip : List Session → Option (List Session)
  | [] => some []
  | s :: rest => do
      let s2 ← s.roundtrip
      let rest2 ← sessionsRoundtrip rest
      some (s2 :: rest2)

/-- Serialise-then-deserialise round trip of an include-free `Config`. -/
def Config.roundtrip (c : Config) : Option Config := do
  let ss ← sessionsRoundtrip c.sessions
  let ws ← windowsRoundtrip c.windows
  some { selected_session := c.selected_session, sessions := ss, windows := ws }

/-! ## Pane iterator equivalence -/

theorem panesStack_cons (s : Split) (rest : List Split) :
    panesStack (s :: rest) = s.pane_iter ++ panesStack rest := by
  induction s generalizing rest with
  | pane p => simp [panesStack, Split.pane_iter]
  | h lw ls rw rs ihl ihr =>
      rw [show panesStack (Split.h lw ls rw rs :: rest) = panesStack (ls :: rs :: rest) from by
        simp [panesStack]]
      rw [ihl, ihr]
      simp [Split.pane_iter]
  | v tw ts bw bs iht ihb =>
      rw [show panesStack (Split.v tw ts bw bs :: rest) = panesStack (ts :: bs :: rest) from by
        simp [panesStack]]
      rw [iht, ihb]
      simp [Split.pane_iter]

/-- The stack-based `Panes` iterator of `src/config/model.rs` yields
exactly the structural pre-order pane list. -/
theorem panesStack_singleton (s : Split) : panesStack [s] = s.pane_iter := by
  rw [panesStack_cons]
  simp [panesStack]

/-! ## Claim C4: `Cwd::joined` -/

/-- C4.  For all working-directory values `parent` and `child`,
`joined parent child` returns `child` when it is present and absolute,
`parent` extended by `child` when both are present and `child` is
relative, `parent` when `child` is absent, and `child` when `parent` is
absent — i.e. `Cwd.joined` agrees with the claim's case analysis
`joinedSpec` everywhere. -/
theorem cwd_joined_matches_spec (parent child : Cwd) :
    Cwd.joined parent child = joinedSpec parent child := by
  cases child with
  | none => rfl
  | some c =>
      cases parent <;> simp [Cwd.joined, joinedSpec]

/-! ## Claim C1: configuration round trip -/

/-- Paths whose text shell expansion leaves unchanged: no `$VAR`
reference and no leading `~`. -/
def noExpand : Cwd → Bool
  | none => true
  | some s => !(s.data.head? = some '~') && !(s.data.contains '$')

/-- Canonical `cwd` field: untouched by the skip/default round trip
(`serdeCwd`) and by shell expansion. -/
def cwdCanon (c : Cwd) : Bool := (serdeCwd c == c) && noExpand c

/-- Canonical size hint: not the omitted-by-default `"50%"`. -/
def sizeCanon (s : Option String) : Bool := serdeSize s == s

/-- Canonical split: every size hint and every pane `cwd` survive the
skip/default round trip. -/
def Split.canon : Split → Bool
  | .pane p => cwdCanon p.cwd
  | .h lw ls rw rs => sizeCanon lw && ls.canon && sizeCanon rw && rs.canon
  | .v tw ts bw bs => sizeCanon tw && ts.canon && sizeCanon bw && bs.canon

/-- Canonical window: canonical `cwd` and split, and a bare root pane
carries neither a `cwd` (whose key the enclosing window map would
capture) nor an `active` flag (which serialisation zeroes). -/
def Window.canon (w : Window) : Bool :=
  cwdCanon w.cwd && w.root_split.canon &&
    (match w.root_split with
     | .pane p => p.cwd == none && p.active == false
     | _ => true)

/-- Canonical session. -/
def Session.canon (s : Session) : Bool :=
  cwdCanon s.cwd && s.windows.all Window.canon

/-- Canonical configuration. -/
def Config.canon (c : Config) : Bool :=
  c.sessions.all Session.canon && c.windows.all Window.canon

theorem serdeCwd_none : serdeCwd none = none := rfl

theorem orElse_none_right (c : Cwd) : c.orElse (fun _ => none) = c := by
  cases c <;> rfl

theorem split_roundtrip_of_canon (s : Split) (h : s.canon = true) :
    s.roundtrip = s := by
  induction s with
  | pane p =>
      simp only [Split.canon, cwdCanon, Bool.and_eq_true, beq_iff_eq] at h
      simp [Split.roundtrip, h.1]
  | h lw ls rw rs ihl ihr =>
      simp only [Split.canon, sizeCanon, Bool.and_eq_true, beq_iff_eq] at h
      obtain ⟨⟨⟨hlw, hls⟩, hrw⟩, hrs⟩ := h
      simp [Split.roundtrip, hlw, hrw, ihl hls, ihr hrs]
  | v tw ts bw bs iht ihb =>
      simp only [Split.canon, sizeCanon, Bool.and_eq_true, beq_iff_eq] at h
      obtain ⟨⟨⟨htw, hts⟩, hbw⟩, hbs⟩ := h
      simp [Split.roundtrip, htw, hbw, iht hts, ihb hbs]

theorem window_roundtrip_of_canon (w : Window) (h : w.canon = true) :
    w.roundtrip = some w := by
  obtain ⟨name, cwd, active, root⟩ := w
  simp only [Window.canon, Bool.and_eq_true, cwdCanon, beq_iff_eq] at h
  obtain ⟨⟨⟨hcwd, hnx⟩, hroot⟩, hpane⟩ := h
  cases root with
  | pane p =>
      obtain ⟨pc, pa, psc, psk⟩ := p
      simp only [beq_iff_eq, Bool.and_eq_true] at hpane
      obtain ⟨hpc, hpa⟩ := hpane
      subst hpc; subst hpa
      simp [Window.roundtrip, rootCwdOut, rootRoundtrip, serdeCwd_none, hcwd,
        orElse_none_right]
  | h lw ls rw rs =>
      simp only [Split.canon, sizeCanon, Bool.and_eq_true, beq_iff_eq] at hroot
      obtain ⟨⟨⟨hlw, hls⟩, hrw⟩, hrs⟩ := hroot
      simp [Window.roundtrip, rootCwdOut, rootRoundtrip, hcwd, orElse_none_right,
        hlw, hrw, split_roundtrip_of_canon ls hls, split_roundtrip_of_canon rs hrs]
  | v tw ts bw bs =>
      simp only [Split.canon, sizeCanon, Bool.and_eq_true, beq_iff_eq] at hroot
      obtain ⟨⟨⟨htw, hts⟩, hbw⟩, hbs⟩ := hroot
      simp [Window.roundtrip, rootCwdOut, rootRoundtrip, hcwd, orElse_none_right,
        htw, hbw, split_roundtrip_of_canon ts hts, split_roundtrip_of_canon bs hbs]

theorem windows_roundtrip_of_canon (ws : List Window)
    (h : ws.all Window.canon = true) : windowsRoundtrip ws = some ws := by
  induction ws with
  | nil => rfl
  | cons w rest ih =>
      simp only [List.all_cons, Bool.and_eq_true] at h
      simp [windowsRoundtrip, window_roundtrip_of_canon w h.1, ih h.2]

theorem session_roundtrip_of_canon (s : Session) (h : s.canon = true) :
    s.roundtrip = some s := by
  obtain ⟨name, cwd, windows⟩ := s
  simp only [Session.canon, Bool.and_eq_true, cwdCanon, beq_iff_eq] at h
  obtain ⟨⟨hcwd, hnx⟩, hws⟩ := h
  simp [Session.roundtrip, windows_roundtrip_of_canon windows hws, hcwd]

theorem sessions_roundtrip_of_canon (ss : List Session)
    (h : ss.all Session.canon = true) : sessionsRoundtrip ss = some ss := by
  induction ss with
  | nil => rfl
  | cons s rest ih =>
      simp only [List.all_cons, Bool.and_eq_true] at h
      simp [sessionsRoundtrip, session_roundtrip_of_canon s h.1, ih h.2]

/-- A configuration whose `H` split carries the size hint `"50%"`: the
hint is omitted by `is_default_size` on serialisation and comes back as
`none`. -/
def c1FiftyPercent : Config :=
  { windows := [{ name := some "w",
                  root_split := .h none (.pane {}) (some "50%") (.pane {}) }] }

/-- A configuration whose window's root split is a bare pane with
`active == true`: serialisation zeroes the flag. -/
def c1ActiveRootPane : Config :=
  { windows := [{ name := some "w",
                  root_split := .pane { active := true } }] }

/-- C1, counterexample.  Serialising and then deserialising is *not* the
identity on the two families of configurations the claim singles out: a
split with the size hint `"50%"` loses the hint, and a bare root pane
with `active == true` loses the flag (in either serialisation format —
the discrepancy arises in the codec-independent skip/default glue). -/
theorem c1_roundtrip_counterexample :
    Config.roundtrip c1FiftyPercent ≠ some c1FiftyPercent ∧
      Config.roundtrip c1ActiveRootPane ≠ some c1ActiveRootPane := by
  constructor <;> decide

/-- C1, amended.  Serialise-then-deserialise is the identity on every
include-free configuration in canonical form: no size hint equal to
`"50%"`, no empty-string `cwd`, no `cwd` that shell expansion would
rewrite, and no window whose root split is a bare pane with a `cwd` or
with `active == true`. -/
theorem c1_roundtrip_canon (c : Config) (h : c.canon = true) :
    Config.roundtrip c = some c := by
  obtain ⟨sel, ss, ws⟩ := c
  simp only [Config.canon, Bool.and_eq_true] at h
  simp [Config.roundtrip, sessions_roundtrip_of_canon ss h.1,
    windows_roundtrip_of_canon ws h.2]

/-- Canonical sample configuration for the C1 witness. -/
def c1Sample : Config :=
  { selected_session := some "s1",
    sessions := [{ name := "s1", cwd := some "/home/u",
                   windows := [{ name := some "w", cwd := some "code", active := true,
                                 root_split := .h none (.pane { cwd := some "/a",
                                                                shell_command := some "vim" })
                                                 (some "30%")
                                                 (.pane { send_keys := some ["ls", "ENTER"] }) }] }],
    windows := [] }

/-- C1 witness: the amended round-trip theorem applied to a concrete
canonical configuration. -/
theorem c1_roundtrip_canon_witness : Config.roundtrip c1Sample = some c1Sample :=
  c1_roundtrip_canon c1Sample (by decide)

/-! ## Tmux command builder (`src/tmux/command.rs`)

`std::process::Command` is modelled by its argv: the list of strings the
builder accumulates (program path first).  `show_warning` writes to
standard error and does not touch builder state; it is not modelled. -/

/-- Split axis (`Axis` in `src/tmux/command.rs`). -/
inductive Axis where
  | horizontal
  | vertical
deriving DecidableEq, Repr

/-- Split flow (`SplitFlow`): `regular` flows right/bottom, `inverted`
flows left/top. -/
inductive SplitFlow where
  | regular
  | inverted
deriving DecidableEq, Repr

/-- Pane-navigation direction (`Direction`). -/
inductive Direction where
  | left
  | right
  | up
  | down
deriving DecidableEq, Repr

/-- `SplitFlow::direction`. -/
def SplitFlow.direction : SplitFlow → Axis → Direction
  | .regular, .horizontal => .right
  | .regular, .vertical => .down
  | .inverted, .horizontal => .left
  | .inverted, .vertical => .up

/-- `Direction::inverted`. -/
def Direction.inverted : Direction → Direction
  | .left => .right
  | .right => .left
  | .up => .down
  | .down => .up

/-- `impl From<&Split> for SplitFlow`: a size hint on the left/top side
inverts the flow. -/
def SplitFlow.ofSplit : Split → SplitFlow
  | .pane _ => .regular
  | .h lw _ _ _ => if lw.isSome then .inverted else .regular
  | .v tw _ _ _ => if tw.isSome then .inverted else .regular

/-- Free function `root_pane`: descend along the regular-flow side (the
side without the size hint) down to a pane. -/
def root_pane : Split → Pane
  | .pane p => p
  | .h lw ls rw rs =>
      match SplitFlow.ofSplit (.h lw ls rw rs) with
      | .regular => root_pane ls
      | .inverted => root_pane rs
  | .v tw ts bw bs =>
      match SplitFlow.ofSplit (.v tw ts bw bs) with
      | .regular => root_pane ts
      | .inverted => root_pane bs

/-- Target value (`Target<Scope>` in `src/tmux/command.rs`); the phantom
scope parameter only selects which `Display` instance runs, so it is
modelled by the three display functions below. -/
structure Target where
  session : Option String := none
  window : Option String := none
  pane : Option String := none
deriving DecidableEq, Repr

/-- `Target::session`. -/
def Target.sessionT (name : String) : Target := { session := some name }

/-- `Target::<Session>::window`. -/
def Target.windowT (t : Target) (w : String) : Target :=
  { session := t.session, window := some w, pane := none }

/-- `Target::<Session>::current_window`. -/
def Target.currentWindowT (t : Target) : Target :=
  { session := t.session, window := none, pane := none }

/-- `Target::<Window>::pane`. -/
def Target.paneT (t : Target) (p : String) : Target :=
  { session := t.session, window := t.window, pane := some p }

/-- `impl Display for Target<Session>`: `<session>:`. -/
def Target.displaySession (t : Target) : String := t.session.getD "" ++ ":"

/-- `impl Display for Target<Window>`: `<session>:<window>.` — note the
trailing dot. -/
def Target.displayWindow (t : Target) : String :=
  t.session.getD "" ++ ":" ++ t.window.getD "" ++ "."

/-- `impl Display for Target<Pane>`: `<session>:<window>.<pane>`. -/
def Target.displayPane (t : Target) : String :=
  t.session.getD "" ++ ":" ++ t.window.getD "" ++ "." ++ t.pane.getD ""

/-- Modulus of the `u32` window counter: Rust's unchecked `u32` addition
wraps at `2^32` (release-build semantics; a debug build aborts instead,
so the wrapped value is the weakest behaviour the increment exhibits). -/
def u32Mod : Nat := 4294967296

/-- `TmuxCommandBuilder` state: accumulated argv plus the per-session
construction state. -/
structure Builder where
  args : List String
  first_command : Bool := true
  current_session_name : Option String := none
  /-- The `u32` field `window_count`; every write keeps it below
  `u32Mod`. -/
  window_count : Nat := 0
  /-- `Option<u32>`; the only value ever stored is a `window_count`
  snapshot, hence below `u32Mod`. -/
  active_window_index : Option Nat := none
deriving DecidableEq, Repr

namespace Builder

/-- `TmuxCommandBuilder::new`: `Command::new(tmux_path).args(tmux_args)`. -/
def new (tmux_path : String) (tmux_args : List String) : Builder :=
  { args := tmux_path :: tmux_args }

/-- `TmuxCommandBuilder::into_command`, projected to the argv. -/
def into_command (b : Builder) : List String := b.args

/-- `TmuxCommandBuilder::push`: append one argv element. -/
def push (b : Builder) (a : String) : Builder := { b with args := b.args ++ [a] }

/-- `TmuxCommandBuilder::push_arg`. -/
def push_arg (b : Builder) : Option String → Builder
  | some a => b.push a
  | none => b

/-- `TmuxCommandBuilder::push_flag_arg`. -/
def push_flag_arg (b : Builder) (flag : String) : Option String → Builder
  | some a => (b.push flag).push a
  | none => b

/-- `TmuxCommandBuilder::push_new_command`: every subcommand after the
first is preceded by a literal `";"` argv element. -/
def push_new_command (b : Builder) (c : String) : Builder :=
  if b.first_command then ({ b with first_command := false }).push c
  else (b.push ";").push c

/-- `TmuxCommandBuilder::push_cwd_arg`. -/
def push_cwd_arg (b : Builder) (cwd : Cwd) : Builder :=
  b.push_flag_arg "-c" cwd.to_path

/-- `TmuxCommandBuilder::push_axis_arg`. -/
def push_axis_arg (b : Builder) : Axis → Builder
  | .horizontal => b.push "-h"
  | .vertical => b.push "-v"

/-- `TmuxCommandBuilder::push_direction_arg`. -/
def push_direction_arg (b : Builder) : Direction → Builder
  | .left => b.push "-L"
  | .right => b.push "-R"
  | .up => b.push "-U"
  | .down => b.push "-D"

/-- `TmuxCommandBuilder::push_next_prev_arg`. -/
def push_next_prev_arg (b : Builder) : Direction → Builder
  | .left => b.push "-p"
  | .right => b.push "-n"
  | .up => b.push "-p"
  | .down => b.push "-n"

/-- `TmuxCommandBuilder::push_flow_arg`: only inverted flow pushes `-b`. -/
def push_flow_arg (b : Builder) : SplitFlow → Builder
  | .regular => b
  | .inverted => b.push "-b"

/-- `TmuxCommandBuilder::session_target`. -/
def session_target (b : Builder) : Target :=
  match b.current_session_name with
  | some name => Target.sessionT name
  | none => {}

/-- `TmuxCommandBuilder::split_pane`. -/
def split_pane (b : Builder) (axis : Axis) (flow : SplitFlow) (cwd : Cwd)
    (shell_command : Option String) (size : Option String) : Builder :=
  ((((((b.push_new_command "split-window").push_flag_arg "-t"
      (some b.session_target.displaySession)).push_axis_arg axis).push_flow_arg
      flow).push_cwd_arg cwd).push_flag_arg "-l" size).push_arg shell_command

/-- `TmuxCommandBuilder::select_pane_at`. -/
def select_pane_at (b : Builder) (direction : Direction) : Builder :=
  ((b.push_new_command "select-pane").push_flag_arg "-t"
      (some b.session_target.displaySession)).push_direction_arg direction

/-- `TmuxCommandBuilder::select_window_at`. -/
def select_window_at (b : Builder) (direction : Direction) : Builder :=
  ((b.push_new_command "select-window").push_flag_arg "-t"
      (some b.session_target.displaySession)).push_next_prev_arg direction

/-- `TmuxCommandBuilder::send_keys`. -/
def send_keys (b : Builder) (keys : List String) : Builder :=
  keys.foldl (fun acc key => acc.push key)
    ((b.push_new_command "send-keys").push_flag_arg "-t"
      (some b.session_target.displaySession))

/-- `TmuxCommandBuilder::apply_split`: realise a split inside the current
window.  The sized (`inverted`) side is always the newly created pane so
its size fits `split-window -l`; after the child subtree is realised the
cursor is moved back onto the parent pane and the parent subtree is
realised. -/
def apply_split : Builder → Split → Cwd → Builder
  | b, .pane p, _ =>
      match p.send_keys with
      | some keys => b.send_keys keys
      | none => b
  | b, .h lw ls rw rs, parent_cwd =>
      if lw.isSome then
        -- Inverted flow: parent is the right side, child the left side.
        let child_pane := root_pane ls
        let child_cwd := parent_cwd.joined child_pane.cwd
        let b := b.split_pane .horizontal .inverted child_cwd
          child_pane.shell_command lw
        let b := apply_split b ls parent_cwd
        let b := b.select_pane_at ((SplitFlow.inverted.direction .horizontal).inverted)
        apply_split b rs parent_cwd
      else
        -- Regular flow: parent is the left side, child the right side.
        let child_pane := root_pane rs
        let child_cwd := parent_cwd.joined child_pane.cwd
        let b := b.split_pane .horizontal .regular child_cwd
          child_pane.shell_command rw
        let b := apply_split b rs parent_cwd
        let b := b.select_pane_at ((SplitFlow.regular.direction .horizontal).inverted)
        apply_split b ls parent_cwd
  | b, .v tw ts bw bs, parent_cwd =>
      if tw.isSome then
        let child_pane := root_pane ts
        let child_cwd := parent_cwd.joined child_pane.cwd
        let b := b.split_pane .vertical .inverted child_cwd
          child_pane.shell_command tw
        let b := apply_split b ts parent_cwd
        let b := b.select_pane_at ((SplitFlow.inverted.direction .vertical).inverted)
        apply_split b bs parent_cwd
      else
        let child_pane := root_pane bs
        let child_cwd := parent_cwd.joined child_pane.cwd
        let b := b.split_pane .vertical .regular child_cwd
          child_pane.shell_command bw
        let b := apply_split b bs parent_cwd
        let b := b.select_pane_at ((SplitFlow.regular.direction .vertical).inverted)
        apply_split b ts parent_cwd

/-- `TmuxCommandBuilder::apply_root_split`: split the fresh window's
placeholder pane horizontally with the designated root pane on the right,
kill the placeholder (pane index 0), then realise the split tree. -/
def apply_root_split (b : Builder) (s : Split) (parent_cwd : Cwd) : Builder :=
  let first_pane := root_pane s
  let first_pane_cwd := parent_cwd.joined first_pane.cwd
  let b := b.split_pane .horizontal .regular first_pane_cwd
    first_pane.shell_command none
  let first_pane_target := (b.session_target.currentWindowT).paneT "0"
  let b := (b.push_new_command "kill-pane").push_flag_arg "-t"
    (some first_pane_target.displayPane)
  apply_split b s parent_cwd

/-- `TmuxCommandBuilder::select_active_pane`: first `active` pane in
pre-order pane-iteration order, selected by its index (further `active`
marks only produce a warning). -/
def select_active_pane (b : Builder) (w : Window) : Builder :=
  let active_panes := (w.root_split.pane_iter.enum.filter (fun x => x.2.active))
  match active_panes.head? with
  | none => b
  | some (pane_index, _) =>
      let target := (b.session_target.currentWindowT).paneT (toString pane_index)
      (b.push_new_command "select-pane").push_flag_arg "-t"
        (some target.displayPane)

/-- `TmuxCommandBuilder::new_window`.  A first `active` mark records the
current window index; the counter increments (`self.window_count += 1`
is an unchecked `u32` addition, wrapping at `2^32`); the window is
created (optionally with `-b` before the given target), its root split
realised and its active pane selected. -/
def new_window (b : Builder) (w : Window) (parent_cwd : Cwd)
    (before_target : Option String) : Builder :=
  let b :=
    if w.active && b.active_window_index.isNone
    then { b with active_window_index := some b.window_count }
    else b
  let b := { b with window_count := (b.window_count + 1) % u32Mod }
  let window_cwd := parent_cwd.joined w.cwd
  let b := ((b.push_new_command "new-window").push_flag_arg "-n"
    w.name).push_cwd_arg window_cwd
  let b :=
    match before_target with
    | some bt =>
        (b.push "-b").push_flag_arg "-t" (some ((b.session_target.windowT bt).displayWindow))
    | none => b.push_flag_arg "-t" (some b.session_target.displaySession)
  let b := b.apply_root_split w.root_split window_cwd
  b.select_active_pane w

/-- Repeated `select_window_at(Left)` — the `for _ in 0..steps` loop of
`select_active_window`. -/
def iterSelectPrev : Builder → Nat → Builder
  | b, 0 => b
  | b, n + 1 => iterSelectPrev (b.select_window_at .left) n

/-- `TmuxCommandBuilder::select_active_window`: with a session name, one
`select-window` at the recorded index; for top-level windows,
`window_count - index - 1` relative `select-window -p` steps. -/
def select_active_window (b : Builder) : Builder :=
  match b.active_window_index with
  | none => b
  | some index =>
      match b.current_session_name with
      | some session_name =>
          let target := (Target.sessionT session_name).windowT (toString index)
          (b.push_new_command "select-window").push_flag_arg "-t"
            (some target.displayWindow)
      | none => b.iterSelectPrev (b.window_count - index - 1)

/-- `TmuxCommandBuilder::new_windows`: fold `new_window` over the list,
then select the recorded active window. -/
def new_windows (b : Builder) (windows : List Window) (parent_cwd : Cwd) : Builder :=
  (windows.foldl (fun acc w => acc.new_window w parent_cwd none) b).select_active_window

/-- `TmuxCommandBuilder::create_initial_window`: reset the per-session
window tracking, create the first window before index 0 and kill the
placeholder window the multiplexer had created (now at index 1). -/
def create_initial_window (b : Builder) (w : Window) (parent_cwd : Cwd) : Builder :=
  let b := { b with active_window_index := none, window_count := 0 }
  let b := b.new_window w parent_cwd (some "0")
  let target := b.session_target.windowT "1"
  (b.push_new_command "kill-window").push_flag_arg "-t" (some target.displayWindow)

/-- `TmuxCommandBuilder::new_session`: sessions without windows are
skipped; otherwise `new-session -s <name> -c <cwd>? -d`, the initial
window, then the remaining windows. -/
def new_session (b : Builder) (s : Session) : Builder :=
  match s.windows with
  | [] => b
  | w0 :: rest =>
      let b := { b with current_session_name := some s.name }
      let b := (((b.push_new_command "new-session").push_flag_arg "-s"
        (some s.name)).push_cwd_arg s.cwd).push "-d"
      (b.create_initial_window w0 s.cwd).new_windows rest s.cwd

/-- `TmuxCommandBuilder::new_sessions`. -/
def new_sessions (b : Builder) (sessions : List Session) : Builder :=
  sessions.foldl new_session b

end Builder

/-! ## Claim C2: scenario S1 -/

/-- Scenario S1 input: one session `"s"` with one window `"w"` whose root
split is a single pane running `bash`. -/
def s1Session : Session :=
  { name := "s",
    windows := [{ name := some "w",
                  root_split := .pane { shell_command := some "bash" } }] }

/-- Argv produced by compiling scenario S1. -/
def s1Argv : List String :=
  ((Builder.new "tmux" []).new_sessions [s1Session]).into_command

/-- C2, counterexample.  The claimed argv (subcommands
`new-session -s s -d; new-window -n w -t s: -b -t s:0;
split-window -t s: -h bash; kill-pane -t s:.0; kill-window -t s:1`)
is not what the builder emits for scenario S1: the `new-window`
subcommand carries no `-t s:` before `-b`, and the window targets render
with a trailing dot (`s:0.`, `s:1.`). -/
theorem s1_claimed_argv_wrong :
    s1Argv ≠
      ["tmux",
       "new-session", "-s", "s", "-d", ";",
       "new-window", "-n", "w", "-t", "s:", "-b", "-t", "s:0", ";",
       "split-window", "-t", "s:", "-h", "bash", ";",
       "kill-pane", "-t", "s:.0", ";",
       "kill-window", "-t", "s:1"] := by
  decide

/-- C2, amended.  Compiling scenario S1 emits exactly the subcommands
`new-session -s s -d; new-window -n w -b -t s:0.;
split-window -t s: -h bash; kill-pane -t s:.0; kill-window -t s:1.`
(in this order, with these argv tokens, after the initial
`[tmux_path]` element). -/
theorem s1_argv_exact :
    s1Argv =
      ["tmux",
       "new-session", "-s", "s", "-d", ";",
       "new-window", "-n", "w", "-b", "-t", "s:0.", ";",
       "split-window", "-t", "s:", "-h", "bash", ";",
       "kill-pane", "-t", "s:.0", ";",
       "kill-window", "-t", "s:1."] := by
  decide

/-! ## Claim C7: empty input is the identity on the command -/

/-- C7.  Zero windows followed by zero sessions leave the command
untouched: the argv is exactly the initial `[tmux_path, ...user_args]`
and no subcommand element is appended. -/
theorem empty_input_identity (tmux_path : String) (user_args : List String)
    (parent_cwd : Cwd) :
    (((Builder.new tmux_path user_args).new_windows [] parent_cwd).new_sessions
        []).into_command = tmux_path :: user_args := by
  rfl

/-! ## Claim C9: the active-window index stays below the window count -/

section ControlPreservation

variable (b : Builder)

@[simp] theorem push_wc (a : String) : (b.push a).window_count = b.window_count := rfl
@[simp] theorem push_awi (a : String) :
    (b.push a).active_window_index = b.active_window_index := rfl
@[simp] theorem push_arg_wc (o : Option String) :
    (b.push_arg o).window_count = b.window_count := by cases o <;> rfl
@[simp] theorem push_arg_awi (o : Option String) :
    (b.push_arg o).active_window_index = b.active_window_index := by cases o <;> rfl
@[simp] theorem push_flag_arg_wc (f : String) (o : Option String) :
    (b.push_flag_arg f o).window_count = b.window_count := by cases o <;> rfl
@[simp] theorem push_flag_arg_awi (f : String) (o : Option String) :
    (b.push_flag_arg f o).active_window_index = b.active_window_index := by
  cases o <;> rfl
@[simp] theorem push_new_command_wc (c : String) :
    (b.push_new_command c).window_count = b.window_count := by
  unfold Builder.push_new_command; split <;> rfl
@[simp] theorem push_new_command_awi (c : String) :
    (b.push_new_command c).active_window_index = b.active_window_index := by
  unfold Builder.push_new_command; split <;> rfl
@[simp] theorem push_cwd_arg_wc (cwd : Cwd) :
    (b.push_cwd_arg cwd).window_count = b.window_count := by cases cwd <;> rfl
@[simp] theorem push_cwd_arg_awi (cwd : Cwd) :
    (b.push_cwd_arg cwd).active_window_index = b.active_window_index := by
  cases cwd <;> rfl
@[simp] theorem push_axis_arg_wc (a : Axis) :
    (b.push_axis_arg a).window_count = b.window_count := by cases a <;> rfl
@[simp] theorem push_axis_arg_awi (a : Axis) :
    (b.push_axis_arg a).active_window_index = b.active_window_index := by
  cases a <;> rfl
@[simp] theorem push_direction_arg_wc (d : Direction) :
    (b.push_direction_arg d).window_count = b.window_count := by cases d <;> rfl
@[simp] theorem push_direction_arg_awi (d : Direction) :
    (b.push_direction_arg d).active_window_index = b.active_window_index := by
  cases d <;> rfl
@[simp] theorem push_next_prev_arg_wc (d : Direction) :
    (b.push_next_prev_arg d).window_count = b.window_count := by cases d <;> rfl
@[simp] theorem push_next_prev_arg_awi (d : Direction) :
    (b.push_next_prev_arg d).active_window_index = b.active_window_index := by
  cases d <;> rfl
@[simp] theorem push_flow_arg_wc (f : SplitFlow) :
    (b.push_flow_arg f).window_count = b.window_count := by cases f <;> rfl
@[simp] theorem push_flow_arg_awi (f : SplitFlow) :
    (b.push_flow_arg f).active_window_index = b.active_window_index := by
  cases f <;> rfl

@[simp] theorem split_pane_wc (axis : Axis) (flow : SplitFlow) (cwd : Cwd)
    (sc size : Option String) :
    (b.split_pane axis flow cwd sc size).window_count = b.window_count := by
  simp [Builder.split_pane]
@[simp] theorem split_pane_awi (axis : Axis) (flow : SplitFlow) (cwd : Cwd)
    (sc size : Option String) :
    (b.split_pane axis flow cwd sc size).active_window_index =
      b.active_window_index := by
  simp [Builder.split_pane]
@[simp] theorem select_pane_at_wc (d : Direction) :
    (b.select_pane_at d).window_count = b.window_count := by
  simp [Builder.select_pane_at]
@[simp] theorem select_pane_at_awi (d : Direction) :
    (b.select_pane_at d).active_window_index = b.active_window_index := by
  simp [Builder.select_pane_at]
@[simp] theorem select_window_at_wc (d : Direction) :
    (b.select_window_at d).window_count = b.window_count := by
  simp [Builder.select_window_at]
@[simp] theorem select_window_at_awi (d : Direction) :
    (b.select_window_at d).active_window_index = b.active_window_index := by
  simp [Builder.select_window_at]

theorem foldl_push_wc (keys : List String) :
    ∀ b : Builder, (keys.foldl (fun acc key => acc.push key) b).window_count =
      b.window_count := by
  induction keys with
  | nil => intro b; rfl
  | cons k rest ih => intro b; simpa using ih (b.push k)

theorem foldl_push_awi (keys : List String) :
    ∀ b : Builder,
      (keys.foldl (fun acc key => acc.push key) b).active_window_index =
        b.active_window_index := by
  induction keys with
  | nil => intro b; rfl
  | cons k rest ih => intro b; simpa using ih (b.push k)

@[simp] theorem send_keys_wc (keys : List String) :
    (b.send_keys keys).window_count = b.window_count := by
  simp [Builder.send_keys, foldl_push_wc]
@[simp] theorem send_keys_awi (keys : List String) :
    (b.send_keys keys).active_window_index = b.active_window_index := by
  simp [Builder.send_keys, foldl_push_awi]

@[simp] theorem apply_split_wc (s : Split) :
    ∀ (b : Builder) (pc : Cwd),
      (Builder.apply_split b s pc).window_count = b.window_count := by
  induction s with
  | pane p =>
      intro b pc
      cases hp : p.send_keys <;> simp [Builder.apply_split, hp]
  | h lw ls rw rs ihl ihr =>
      intro b pc
      cases hlw : lw.isSome <;> simp [Builder.apply_split, hlw, ihl, ihr]
  | v tw ts bw bs iht ihb =>
      intro b pc
      cases htw : tw.isSome <;> simp [Builder.apply_split, htw, iht, ihb]

@[simp] theorem apply_split_awi (s : Split) :
    ∀ (b : Builder) (pc : Cwd),
      (Builder.apply_split b s pc).active_window_index =
        b.active_window_index := by
  induction s with
  | pane p =>
      intro b pc
      cases hp : p.send_keys <;> simp [Builder.apply_split, hp]
  | h lw ls rw rs ihl ihr =>
      intro b pc
      cases hlw : lw.isSome <;> simp [Builder.apply_split, hlw, ihl, ihr]
  | v tw ts bw bs iht ihb =>
      intro b pc
      cases htw : tw.isSome <;> simp [Builder.apply_split, htw, iht, ihb]

@[simp] theorem apply_root_split_wc (s : Split) (pc : Cwd) :
    (b.apply_root_split s pc).window_count = b.window_count := by
  simp [Builder.apply_root_split]
@[simp] theorem apply_root_split_awi (s : Split) (pc : Cwd) :
    (b.apply_root_split s pc).active_window_index = b.active_window_index := by
  simp [Builder.apply_root_split]

@[simp] theorem select_active_pane_wc (w : Window) :
    (b.select_active_pane w).window_count = b.window_count := by
  unfold Builder.select_active_pane
  rcases h : (List.filter (fun x => x.2.active) w.root_split.pane_iter.enum).head?
    with _ | ⟨i, p⟩ <;> simp [h]
@[simp] theorem select_active_pane_awi (w : Window) :
    (b.select_active_pane w).active_window_index = b.active_window_index := by
  unfold Builder.select_active_pane
  rcases h : (List.filter (fun x => x.2.active) w.root_split.pane_iter.enum).head?
    with _ | ⟨i, p⟩ <;> simp [h]

end ControlPreservation

theorem new_window_wc (b : Builder) (w : Window) (pc : Cwd)
    (bt : Option String) :
    (b.new_window w pc bt).window_count = (b.window_count + 1) % u32Mod := by
  unfold Builder.new_window
  cases bt <;> split <;> simp

theorem new_window_awi (b : Builder) (w : Window) (pc : Cwd)
    (bt : Option String) :
    (b.new_window w pc bt).active_window_index =
      if w.active && b.active_window_index.isNone then some b.window_count
      else b.active_window_index := by
  unfold Builder.new_window
  cases bt <;> split <;> simp_all

theorem iterSelectPrev_wc (n : Nat) :
    ∀ b : Builder, (Builder.iterSelectPrev b n).window_count = b.window_count := by
  induction n with
  | zero => intro b; rfl
  | succ n ih =>
      intro b
      have h := ih (b.select_window_at .left)
      simp only [Builder.iterSelectPrev, h, select_window_at_wc]

theorem iterSelectPrev_awi (n : Nat) :
    ∀ b : Builder,
      (Builder.iterSelectPrev b n).active_window_index = b.active_window_index := by
  induction n with
  | zero => intro b; rfl
  | succ n ih =>
      intro b
      have h := ih (b.select_window_at .left)
      simp only [Builder.iterSelectPrev, h, select_window_at_awi]

theorem select_active_window_wc (b : Builder) :
    b.select_active_window.window_count = b.window_count := by
  unfold Builder.select_active_window
  split
  · rfl
  · split
    · simp
    · simp [iterSelectPrev_wc]

theorem select_active_window_awi (b : Builder) :
    b.select_active_window.active_window_index = b.active_window_index := by
  unfold Builder.select_active_window
  split
  · rfl
  · split
    · simp
    · simp [iterSelectPrev_awi]

/-- Wrap-aware builder invariant, indexed by the exact (unbounded) number
`n` of `new_window` calls since the window counter was last reset: the
`u32` counter equals `n` modulo `2^32`, and every recorded active-window
index is the counter snapshot taken after `m < n` such calls. -/
def WInv (b : Builder) (n : Nat) : Prop :=
  b.window_count = n % u32Mod ∧
    ∀ i, b.active_window_index = some i → ∃ m, m < n ∧ i = m % u32Mod

theorem winv_of_eq {b1 b2 : Builder} {n : Nat} (h : WInv b1 n)
    (hwc : b2.window_count = b1.window_count)
    (hawi : b2.active_window_index = b1.active_window_index) : WInv b2 n := by
  refine ⟨by rw [hwc]; exact h.1, ?_⟩
  intro i hi
  rw [hawi] at hi
  exact h.2 i hi

theorem winv_new_window {b : Builder} {n : Nat} (h : WInv b n) (w : Window)
    (pc : Cwd) (bt : Option String) : WInv (b.new_window w pc bt) (n + 1) := by
  constructor
  · rw [new_window_wc, h.1, Nat.mod_add_mod]
  · intro i hi
    rw [new_window_awi] at hi
    split at hi
    · cases hi
      exact ⟨n, Nat.lt_succ_self n, h.1⟩
    · obtain ⟨m, hm, him⟩ := h.2 i hi
      exact ⟨m, Nat.lt_succ_of_lt hm, him⟩

theorem winv_select_active_window {b : Builder} {n : Nat} (h : WInv b n) :
    WInv b.select_active_window n :=
  winv_of_eq h (select_active_window_wc b) (select_active_window_awi b)

theorem winv_fold_new_windows (ws : List Window) (pc : Cwd) :
    ∀ (b : Builder) (n : Nat), WInv b n →
      WInv (ws.foldl (fun acc w => acc.new_window w pc none) b) (n + ws.length) := by
  induction ws with
  | nil => intro b n h; simpa using h
  | cons w rest ih =>
      intro b n h
      have h3 := ih _ _ (winv_new_window h w pc none)
      simp only [List.foldl_cons, List.length_cons]
      have heq : n + (rest.length + 1) = n + 1 + rest.length := by omega
      rw [heq]
      exact h3

theorem winv_new_windows {b : Builder} {n : Nat} (h : WInv b n)
    (ws : List Window) (pc : Cwd) : WInv (b.new_windows ws pc) (n + ws.length) := by
  unfold Builder.new_windows
  exact winv_select_active_window (winv_fold_new_windows ws pc b n h)

theorem winv_create_initial_window (b : Builder) (w : Window) (pc : Cwd) :
    WInv (b.create_initial_window w pc) 1 := by
  unfold Builder.create_initial_window
  have h0 : WInv { b with active_window_index := none, window_count := 0 } 0 :=
    ⟨rfl, by intro i hi; simp at hi⟩
  have h1 := winv_new_window h0 w pc (some "0")
  exact winv_of_eq h1 (by simp) (by simp)

theorem winv_new_session {b : Builder} {n : Nat} (h : WInv b n) (s : Session) :
    WInv (b.new_session s) (if s.windows.isEmpty then n else s.windows.length) := by
  rcases hws : s.windows with _ | ⟨w0, rest⟩
  · simp only [Builder.new_session, hws, List.isEmpty_nil, if_true]
    exact h
  · simp only [Builder.new_session, hws, List.isEmpty_cons, Bool.false_eq_true,
      if_false, List.length_cons]
    have heq : rest.length + 1 = 1 + rest.length := by omega
    rw [heq]
    exact winv_new_windows (winv_create_initial_window _ w0 s.cwd) rest s.cwd

/-- Builder states reachable by any sequence of `new_session`,
`new_windows` and `new_window` calls from a fresh builder (the claim's
notion of reachability). -/
inductive Reached : Builder → Prop where
  | init (tmux_path : String) (tmux_args : List String) :
      Reached (Builder.new tmux_path tmux_args)
  | step_session {b : Builder} (s : Session) :
      Reached b → Reached (b.new_session s)
  | step_windows {b : Builder} (ws : List Window) (pc : Cwd) :
      Reached b → Reached (b.new_windows ws pc)
  | step_window {b : Builder} (w : Window) (pc : Cwd) (bt : Option String) :
      Reached b → Reached (b.new_window w pc bt)

/-- Ghost-counted reachability: like `Reached`, but carrying the exact
(unbounded) number of `new_window` invocations since the window counter
was last reset (`create_initial_window` resets it, then the session's
windows are created one by one). -/
inductive ReachedW : Builder → Nat → Prop where
  | init (tmux_path : String) (tmux_args : List String) :
      ReachedW (Builder.new tmux_path tmux_args) 0
  | step_session {b : Builder} {n : Nat} (s : Session) :
      ReachedW b n →
        ReachedW (b.new_session s) (if s.windows.isEmpty then n else s.windows.length)
  | step_windows {b : Builder} {n : Nat} (ws : List Window) (pc : Cwd) :
      ReachedW b n → ReachedW (b.new_windows ws pc) (n + ws.length)
  | step_window {b : Builder} {n : Nat} (w : Window) (pc : Cwd) (bt : Option String) :
      ReachedW b n → ReachedW (b.new_window w pc bt) (n + 1)

/-- Every reachable state carries some ghost count: the ghost-counted
reachability covers exactly the claim's reachable states. -/
theorem reachedW_of_reached {b : Builder} (h : Reached b) : ∃ n, ReachedW b n := by
  induction h with
  | init p a => exact ⟨0, ReachedW.init p a⟩
  | step_session s _ ih =>
      obtain ⟨n, hn⟩ := ih
      exact ⟨_, ReachedW.step_session s hn⟩
  | step_windows ws pc _ ih =>
      obtain ⟨n, hn⟩ := ih
      exact ⟨_, ReachedW.step_windows ws pc hn⟩
  | step_window w pc bt _ ih =>
      obtain ⟨n, hn⟩ := ih
      exact ⟨_, ReachedW.step_window w pc bt hn⟩

theorem winv_reachedW {b : Builder} {n : Nat} (hr : ReachedW b n) : WInv b n := by
  induction hr with
  | init p a => exact ⟨rfl, by intro i hi; simp [Builder.new] at hi⟩
  | step_session s _ ih => exact winv_new_session ih s
  | step_windows ws pc _ ih => exact winv_new_windows ih ws pc
  | step_window w pc bt _ ih => exact winv_new_window ih w pc bt

/-- Repeated `new_window` with a default window: drives the `u32` window
counter towards its wrap point. -/
def iterNewWindow : Builder → Nat → Builder
  | b, 0 => b
  | b, k + 1 => iterNewWindow (b.new_window {} none none) k

theorem iterNewWindow_reached {b : Builder} (h : Reached b) :
    ∀ k, Reached (iterNewWindow b k) := by
  intro k
  induction k generalizing b with
  | zero => exact h
  | succ k ih => exact ih (Reached.step_window {} none none h)

theorem iterNewWindow_wc (k : Nat) :
    ∀ b : Builder, b.window_count < u32Mod →
      (iterNewWindow b k).window_count = (b.window_count + k) % u32Mod := by
  induction k with
  | zero => intro b hb; simp [iterNewWindow, Nat.mod_eq_of_lt hb]
  | succ k ih =>
      intro b hb
      rw [show iterNewWindow b (k + 1) =
            iterNewWindow (b.new_window {} none none) k from rfl]
      rw [ih _ (by rw [new_window_wc]; exact Nat.mod_lt _ (by decide))]
      rw [new_window_wc, Nat.mod_add_mod]
      congr 1
      omega

theorem iterNewWindow_awi (k : Nat) :
    ∀ b : Builder,
      (iterNewWindow b k).active_window_index = b.active_window_index := by
  induction k with
  | zero => intro b; rfl
  | succ k ih =>
      intro b
      rw [show iterNewWindow b (k + 1) =
            iterNewWindow (b.new_window {} none none) k from rfl]
      rw [ih, new_window_awi]
      simp

/-- Concrete reachable builder for the C9 witness: one active window. -/
def c9Builder : Builder :=
  (Builder.new "tmux" []).new_window { active := true } none none

/-- Builder state after one active window and `2^32 - 1` further default
windows: the `u32` window counter has wrapped back to `0` while the
recorded active-window index is still `Some(0)`. -/
def c9WrapBuilder : Builder := iterNewWindow c9Builder (u32Mod - 1)

/-- C9, counterexample.  The claimed invariant fails over the program's
actual `u32` counter arithmetic: a state reachable by a sequence of
`new_window` calls has `active_window_index = Some(0)` but
`window_count = 0` (the unchecked `u32` increment has wrapped), so
`i < window_count` is false there and the unsigned subtraction
`window_count - index - 1` does underflow. -/
theorem reached_invariant_wrap_counterexample :
    Reached c9WrapBuilder ∧
      c9WrapBuilder.active_window_index = some 0 ∧
      ¬(0 < c9WrapBuilder.window_count) ∧
      (c9WrapBuilder.window_count - 0 - 1) + (0 + 1) ≠ c9WrapBuilder.window_count := by
  have h1 : c9Builder.window_count = 1 := by decide
  have hwc : c9WrapBuilder.window_count = 0 := by
    unfold c9WrapBuilder
    rw [iterNewWindow_wc _ _ (by rw [h1]; decide), h1]
    decide
  have hawi : c9WrapBuilder.active_window_index = some 0 := by
    unfold c9WrapBuilder
    rw [iterNewWindow_awi]
    decide
  refine ⟨?_, hawi, by rw [hwc]; decide, by rw [hwc]; decide⟩
  exact iterNewWindow_reached
    (Reached.step_window { active := true } none none (Reached.init "tmux" [])) _

/-- C9, amended.  The invariant holds as long as the `u32` window counter
has not overflowed: in every builder state reached with fewer than `2^32`
`new_window` calls since the counter's last reset, a recorded
active-window index is strictly below the window count, so the unsigned
subtraction `window_count - index - 1` in `select_active_window` is exact
and never underflows: `steps + (index + 1) = window_count`. -/
theorem active_window_in_range_no_wrap {b : Builder} {n : Nat}
    (hr : ReachedW b n) (hn : n < u32Mod) :
    ∀ i, b.active_window_index = some i →
      i < b.window_count ∧
        (b.window_count - i - 1) + (i + 1) = b.window_count := by
  obtain ⟨hwc, hawi⟩ := winv_reachedW hr
  intro i hi
  obtain ⟨m, hm, him⟩ := hawi i hi
  have hmlt : m < u32Mod := lt_trans hm hn
  rw [Nat.mod_eq_of_lt hmlt] at him
  rw [hwc, Nat.mod_eq_of_lt hn]
  subst him
  exact ⟨hm, by omega⟩

/-- C9 witness: the amended theorem applied to a concrete state reached
with one `new_window` call, far below the wrap point. -/
theorem active_window_in_range_no_wrap_witness :
    0 < c9Builder.window_count ∧
      (c9Builder.window_count - 0 - 1) + (0 + 1) = c9Builder.window_count :=
  active_window_in_range_no_wrap
    (ReachedW.step_window { active := true } none none (ReachedW.init "tmux" []))
    (by decide) 0 (by decide)

/-! ## Layout descriptor parser (`src/tmux/layout.rs`)

The `nom` recursive-descent parser over `&str` is modelled over `List
Char` with result type `Option (value × remaining input)`; `none` is a
`nom` error (all combinators used — `alt`, `separated_list1` — backtrack
on error).  The recursion of the `split` rule is driven by a fuel
parameter; one fuel unit is spent per nesting level and every nesting
level consumes at least one input character, so `length + 1` fuel is
never exhausted. -/

/-- Size `WxH` (`Size` in `src/tmux/layout.rs`). -/
structure Size where
  width : Nat := 0
  height : Nat := 0
deriving DecidableEq, Repr

/-- Pane geometry (`PaneGeom`). -/
structure PaneGeom where
  size : Size := {}
  x_offset : Nat := 0
  y_offset : Nat := 0
deriving DecidableEq, Repr

/-- Geometry tree (`Layout` in `src/tmux/layout.rs`): a leaf pane or a
horizontal/vertical split with its own geometry and child list. -/
inductive Layout where
  | pane (g : PaneGeom)
  | h (g : PaneGeom) (cs : List Layout)
  | v (g : PaneGeom) (cs : List Layout)

/-- `Layout::geom`. -/
def Layout.geom : Layout → PaneGeom
  | .pane g => g
  | .h g _ => g
  | .v g _ => g

/-- `Layout::width`. -/
def Layout.width (l : Layout) : Nat := l.geom.size.width

/-- `Layout::height`. -/
def Layout.height (l : Layout) : Nat := l.geom.size.height

/-- Parser result: parsed value and remaining input, or a parse error. -/
abbrev PRes (α : Type) := Option (α × List Char)

/-- Largest `u32` value. -/
def u32Max : Nat := 4294967295

/-- Numeric value of a digit string. -/
def digitsToNat (ds : List Char) : Nat :=
  ds.foldl (fun a c => a * 10 + (c.toNat - 48)) 0

/-- `nom` `digit1`: one or more ASCII digits, maximal munch. -/
def pDigit1 (i : List Char) : PRes (List Char) :=
  match i.span Char.isDigit with
  | ([], _) => none
  | (ds, rest) => some (ds, rest)

/-- `nom` `character::complete::u32`: a digit run whose value fits an
unsigned 32-bit integer (`nom` errors out on overflow). -/
def pU32 (i : List Char) : PRes Nat :=
  match pDigit1 i with
  | none => none
  | some (ds, rest) =>
      let v := digitsToNat ds
      if v ≤ u32Max then some (v, rest) else none

/-- `nom` `tag` for a single character. -/
def pTag (c : Char) (i : List Char) : PRes Unit :=
  match i with
  | x :: rest => if x = c then some ((), rest) else none
  | [] => none

/-- The `size` rule: `u32 "x" u32`. -/
def pSize (i : List Char) : PRes Size :=
  match pU32 i with
  | none => none
  | some (w, r1) =>
      match pTag 'x' r1 with
      | none => none
      | some (_, r2) =>
          match pU32 r2 with
          | none => none
          | some (hv, r3) => some ({ width := w, height := hv }, r3)

/-- The `pane_geom` rule: `size "," u32 "," u32`. -/
def pPaneGeom (i : List Char) : PRes PaneGeom :=
  match pSize i with
  | none => none
  | some (sz, r1) =>
      match pTag ',' r1 with
      | none => none
      | some (_, r2) =>
          match pU32 r2 with
          | none => none
          | some (x, r3) =>
              match pTag ',' r3 with
              | none => none
              | some (_, r4) =>
                  match pU32 r4 with
                  | none => none
                  | some (y, r5) =>
                      some ({ size := sz, x_offset := x, y_offset := y }, r5)

/-- The `pane_split` rule: `pane_geom "," digit1` (the digits are the
discarded pane hint). -/
def pPaneSplit (i : List Char) : PRes Layout :=
  match pPaneGeom i with
  | none => none
  | some (g, r1) =>
      match pTag ',' r1 with
      | none => none
      | some (_, r2) =>
          match pDigit1 r2 with
          | none => none
          | some (_, r3) => some (.pane g, r3)

/-- The `checksum` rule: `take_until(",")` (an error when no comma
exists) followed by `take(1)` — everything up to and including the first
comma is discarded. -/
def pChecksum (i : List Char) : PRes Unit :=
  match i.span (fun c => c != ',') with
  | (_, ',' :: rest) => some ((), rest)
  | _ => none

/-- Iteration of `separated_list1`'s tail: try a `","` separator and then
an element; when either fails, stop *before* the separator.  The `Nat`
bound only limits the iteration count; each successful iteration consumes
at least the separator, so `input length` iterations are never cut
short. -/
def sepLoop (pe : List Char → PRes Layout) :
    Nat → List Char → List Layout → (List Layout × List Char)
  | 0, i, acc => (acc.reverse, i)
  | n + 1, i, acc =>
      match i with
      | ',' :: r =>
          (match pe r with
           | some (a, r2) => sepLoop pe n r2 (a :: acc)
           | none => (acc.reverse, i))
      | _ => (acc.reverse, i)

/-- `nom` `separated_list1(tag(","), split)`: a mandatory first element,
then separator-prefixed elements while they parse. -/
def pList1 (pe : List Char → PRes Layout) (i : List Char) : PRes (List Layout) :=
  match pe i with
  | none => none
  | some (a, r) =>
      match sepLoop pe r.length r [a] with
      | (items, r2) => some (items, r2)

/-- The `h_split` rule: `pane_geom "{" split ("," split)+ "}"`,
parameterised by the parser for the nested `split` rule. -/
def hSplitWith (pe : List Char → PRes Layout) (i : List Char) : PRes Layout :=
  match pPaneGeom i with
  | none => none
  | some (g, r1) =>
      match pTag '{' r1 with
      | none => none
      | some (_, r2) =>
          match pList1 pe r2 with
          | none => none
          | some (cs, r3) =>
              match pTag '}' r3 with
              | none => none
              | some (_, r4) => some (.h g cs, r4)

/-- The `v_split` rule: `pane_geom "[" split ("," split)+ "]"`. -/
def vSplitWith (pe : List Char → PRes Layout) (i : List Char) : PRes Layout :=
  match pPaneGeom i with
  | none => none
  | some (g, r1) =>
      match pTag '[' r1 with
      | none => none
      | some (_, r2) =>
          match pList1 pe r2 with
          | none => none
          | some (cs, r3) =>
              match pTag ']' r3 with
              | none => none
              | some (_, r4) => some (.v g cs, r4)

/-- One level of the `split` rule: `alt((pane_split, h_split, v_split))`. -/
def splitStep (pe : List Char → PRes Layout) (i : List Char) : PRes Layout :=
  match pPaneSplit i with
  | some r => some r
  | none =>
      match hSplitWith pe i with
      | some r => some r
      | none => vSplitWith pe i

/-- The recursive `split` rule, one fuel unit per nesting level. -/
def pSplit : Nat → List Char → PRes Layout
  | 0, _ => none
  | fuel + 1, i => splitStep (pSplit fuel) i

/-- The `layout` rule: `preceded(checksum, split)`. -/
def pLayout (i : List Char) : PRes Layout :=
  match pChecksum i with
  | none => none
  | some (_, r) => pSplit (r.length + 1) r

/-- `parser::parse_layout` / `Layout::parse`: `all_consuming(layout)` — a
result is returned only when the whole input was consumed; leftover input
or a grammar mismatch is a `ParseError` (modelled as the error message). -/
def parse_layout (s : String) : Except String Layout :=
  match pLayout s.data with
  | some (t, []) => .ok t
  | some (_, _ :: _) => .error "layout parse error: Eof"
  | none => .error "layout parse error"

/-! ## Geometry-to-split converter (`impl From<Layout> for config::Split`)

The Rust code runs the computation in `f32`; every accumulated width and
height is an integer (a sum of `u32` sizes minus separator units), which
`f32` represents exactly at these magnitudes, so the accumulator is
modelled as an exact `Int` and `f32::round` of the single division as an
exact round-half-away-from-zero integer division. -/

/-- Round-half-away-from-zero of the ratio `num / den`
(`f32::round` of the division, computed exactly). -/
def pctRound (num den : Int) : Int :=
  Int.sign num * Int.sign den *
    ((2 * num.natAbs + den.natAbs) / (2 * den.natAbs) : Nat)

/-- Percentage size hint rendering (`format!("\x7b:.0\x7d%", x)` of the
already-rounded value). -/
def pctFmt (num den : Int) : String := toString (pctRound num den) ++ "%"

/-- Right-to-left fold of the `H` case of `impl From<Layout> for Split`:
`acc_width` starts at the rightmost child's width, and every further
(already converted) child is attached as the unsized left part of a new
`H` split whose right part carries `round(acc_width * 100 / new_width)`
with `new_width = acc_width + left.width() - LINE_WIDTH`. -/
def hGo : List (Int × Split) → Int → Split → Split
  | [], _, acc => acc
  | (w, s) :: rest, accWidth, acc =>
      let newWidth := accWidth + w - 1
      hGo rest newWidth (.h none s (some (pctFmt (accWidth * 100) newWidth)) acc)

/-- The `H` case of `impl From<Layout> for Split` on the list of
(width, converted child) pairs: pop the last child to seed the
accumulator, then fold the remaining children right-to-left; an empty
child list yields the default pane. -/
def buildH (pairs : List (Int × Split)) : Split :=
  match pairs.reverse with
  | [] => .pane {}
  | (w, s) :: rest => hGo rest w s

/-- The `V` analogue of `hGo` with heights and top/bottom parts. -/
def vGo : List (Int × Split) → Int → Split → Split
  | [], _, acc => acc
  | (hv, s) :: rest, accHeight, acc =>
      let newHeight := accHeight + hv - 1
      vGo rest newHeight (.v none s (some (pctFmt (accHeight * 100) newHeight)) acc)

/-- The `V` case of `impl From<Layout> for Split`. -/
def buildV (pairs : List (Int × Split)) : Split :=
  match pairs.reverse with
  | [] => .pane {}
  | (hv, s) :: rest => vGo rest hv s

mutual

/-- `impl From<Layout> for config::Split`: a leaf becomes the default
pane; an `H`/`V` node becomes the right-associative percentage-sized
fold of its converted children. -/
def fromLayout : Layout → Split
  | .pane _ => .pane {}
  | .h _ splits => buildH (pairsH splits)
  | .v _ splits => buildV (pairsV splits)

/-- Widths paired with converted children for the `H` fold. -/
def pairsH : List Layout → List (Int × Split)
  | [] => []
  | c :: rest => ((c.width : Int), fromLayout c) :: pairsH rest

/-- Heights paired with converted children for the `V` fold. -/
def pairsV : List Layout → List (Int × Split)
  | [] => []
  | c :: rest => ((c.height : Int), fromLayout c) :: pairsV rest

end

mutual

/-- Number of leaf (`Pane`) nodes of a geometry tree. -/
def Layout.leafCount : Layout → Nat
  | .pane _ => 1
  | .h _ cs => leafCountList cs
  | .v _ cs => leafCountList cs

/-- Total leaf count of a child list. -/
def leafCountList : List Layout → Nat
  | [] => 0
  | c :: rest => c.leafCount + leafCountList rest

end

mutual

/-- Well-formed geometry tree in the sense of the specification's data
model (§3): every split node has a non-empty (≥ 1) child list — the
property the descriptor grammar's `separated_list1` guarantees. -/
def Layout.wfB : Layout → Bool
  | .pane _ => true
  | .h _ cs => !cs.isEmpty && wfListB cs
  | .v _ cs => !cs.isEmpty && wfListB cs

/-- Well-formedness of every member of a child list. -/
def wfListB : List Layout → Bool
  | [] => true
  | c :: rest => c.wfB && wfListB rest

end

/-! ## Claim C5: the descriptor parser consumes all input or fails -/

/-- C5.  `parse_layout` is a total function from strings to a geometry
tree or a parse error; it returns a tree exactly when the grammar matched
a prefix and that prefix is the whole input; a well-formed layout
followed by trailing garbage, and any syntactic mismatch, give a
`ParseError`, never a partial result. -/
theorem parse_layout_all_consuming (s : String) :
    (∀ t, parse_layout s = .ok t → pLayout s.data = some (t, [])) ∧
      (∀ t rest, pLayout s.data = some (t, rest) → rest ≠ [] →
        parse_layout s = .error "layout parse error: Eof") ∧
      (pLayout s.data = none → parse_layout s = .error "layout parse error") := by
  refine ⟨?_, ?_, ?_⟩
  · intro t ht
    unfold parse_layout at ht
    rcases h : pLayout s.data with _ | ⟨t2, rest⟩
    · rw [h] at ht; exact absurd ht (by simp)
    · rw [h] at ht
      cases rest with
      | nil =>
          simp only [Except.ok.injEq] at ht
          rw [ht]
      | cons c cs => exact absurd ht (by simp)
  · intro t rest ht hne
    unfold parse_layout
    rw [ht]
    cases rest with
    | nil => exact absurd rfl hne
    | cons c cs => rfl
  · intro h
    unfold parse_layout
    rw [h]

/-- C5 witness: trailing garbage after a well-formed single-pane layout
is a parse error, and an input without any comma (checksum mismatch) is a
parse error. -/
theorem parse_layout_all_consuming_witness :
    parse_layout "a,1x1,0,0,0Z" = .error "layout parse error: Eof" ∧
      parse_layout "nocomma" = .error "layout parse error" :=
  ⟨(parse_layout_all_consuming "a,1x1,0,0,0Z").2.1 (.pane ⟨⟨1, 1⟩, 0, 0⟩)
      ['Z'] rfl (by decide),
   (parse_layout_all_consuming "nocomma").2.2 rfl⟩

/-! ## Claim C3: scenario S4 -/

/-- Scenario S4 input descriptor
`abcd,80x24,0,0{40x24,0,0,1,39x24,41,0,2}`. -/
def demoDescriptor : String := "abcd,80x24,0,0\x7b40x24,0,0,1,39x24,41,0,2\x7d"

/-- Geometry tree of scenario S4:
`H(PaneGeom(80x24,0,0), [Pane(40x24,0,0), Pane(39x24,41,0)])`. -/
def demoLayout : Layout :=
  .h ⟨⟨80, 24⟩, 0, 0⟩ [.pane ⟨⟨40, 24⟩, 0, 0⟩, .pane ⟨⟨39, 24⟩, 41, 0⟩]

/-- C3, counterexample.  The descriptor parses to the claimed geometry
tree, but converting that tree does *not* put the width hint `"51%"` on
the right side: the code computes `round(acc_width * 100 / new_width)`
with `acc_width = 39` (the rightmost child's width), i.e.
`round(3900 / 78) = 50`. -/
theorem s4_convert_hint_wrong :
    parse_layout demoDescriptor = .ok demoLayout ∧
      fromLayout demoLayout ≠
        Split.h none (.pane {}) (some "51%") (.pane {}) :=
  ⟨rfl, by decide⟩

/-- C3, amended.  The descriptor parses to
`H(PaneGeom(80x24,0,0), [Pane(40x24,0,0), Pane(39x24,41,0)])` and the
conversion yields an `H` split with no width hint on the left and the
width hint `"50%"` on the right (`round(39 * 100 / (39 + 40 - 1)) =
round(3900/78) = 50`). -/
theorem s4_parse_and_convert :
    parse_layout demoDescriptor = .ok demoLayout ∧
      fromLayout demoLayout =
        Split.h none (.pane {}) (some "50%") (.pane {}) :=
  ⟨rfl, rfl⟩

/-! ## Claims C6 and C10: properties of the geometry-to-split conversion -/

theorem pairsH_eq (cs : List Layout) :
    pairsH cs = cs.map (fun c => ((c.width : Int), fromLayout c)) := by
  induction cs with
  | nil => rfl
  | cons c rest ih => simp [pairsH, ih]

theorem pairsV_eq (cs : List Layout) :
    pairsV cs = cs.map (fun c => ((c.height : Int), fromLayout c)) := by
  induction cs with
  | nil => rfl
  | cons c rest ih => simp [pairsV, ih]

theorem leafCountList_eq_sum (cs : List Layout) :
    leafCountList cs = (cs.map Layout.leafCount).sum := by
  induction cs with
  | nil => rfl
  | cons c rest ih => simp [leafCountList, ih]

theorem wfListB_mem {cs : List Layout} (h : wfListB cs = true) :
    ∀ c ∈ cs, c.wfB = true := by
  induction cs with
  | nil => intro c hc; cases hc
  | cons a rest ih =>
      simp only [wfListB, Bool.and_eq_true] at h
      intro c hc
      cases hc with
      | head => exact h.1
      | tail _ hc2 => exact ih h.2 c hc2

theorem hGo_panes (rest : List (Int × Split)) :
    ∀ (accWidth : Int) (acc : Split),
      (hGo rest accWidth acc).pane_iter =
        ((rest.map (fun p => p.2.pane_iter)).reverse).flatten ++ acc.pane_iter := by
  induction rest with
  | nil => intro accWidth acc; simp [hGo]
  | cons p rest ih =>
      intro accWidth acc
      obtain ⟨w, s⟩ := p
      simp [hGo, ih, Split.pane_iter, List.flatten_append]

theorem vGo_panes (rest : List (Int × Split)) :
    ∀ (accHeight : Int) (acc : Split),
      (vGo rest accHeight acc).pane_iter =
        ((rest.map (fun p => p.2.pane_iter)).reverse).flatten ++ acc.pane_iter := by
  induction rest with
  | nil => intro accHeight acc; simp [vGo]
  | cons p rest ih =>
      intro accHeight acc
      obtain ⟨hv, s⟩ := p
      simp [vGo, ih, Split.pane_iter, List.flatten_append]

theorem buildH_panes (pairs : List (Int × Split)) (hne : pairs ≠ []) :
    (buildH pairs).pane_iter = (pairs.map (fun p => p.2.pane_iter)).flatten := by
  rcases hr : pairs.reverse with _ | ⟨⟨w, s⟩, rest⟩
  · exact absurd (by simpa using congrArg List.reverse hr) hne
  · have hp : pairs = rest.reverse ++ [(w, s)] := by
      have h2 := congrArg List.reverse hr
      simpa using h2
    rw [buildH, hr, hGo_panes, hp]
    simp [List.flatten_append]

theorem buildV_panes (pairs : List (Int × Split)) (hne : pairs ≠ []) :
    (buildV pairs).pane_iter = (pairs.map (fun p => p.2.pane_iter)).flatten := by
  rcases hr : pairs.reverse with _ | ⟨⟨hv, s⟩, rest⟩
  · exact absurd (by simpa using congrArg List.reverse hr) hne
  · have hp : pairs = rest.reverse ++ [(hv, s)] := by
      have h2 := congrArg List.reverse hr
      simpa using h2
    rw [buildV, hr, vGo_panes, hp]
    simp [List.flatten_append]

/-- C6.  For every geometry tree (well-formed per the §3 data model:
every split node carries a non-empty child list, which the descriptor
grammar guarantees), the conversion to a split preserves the pane count:
the pre-order pane iterator of the produced split yields exactly as many
panes as the geometry tree has leaves. -/
theorem fromLayout_preserves_pane_count (l : Layout) (hw : l.wfB = true) :
    (fromLayout l).pane_iter.length = l.leafCount := by
  generalize hn : sizeOf l = n
  induction n using Nat.strong_induction_on generalizing l with
  | _ n ih =>
    cases l with
    | pane g => simp [fromLayout, Split.pane_iter, Layout.leafCount]
    | h g cs =>
        simp only [Layout.wfB, Bool.and_eq_true] at hw
        have hne2 : cs ≠ [] := by
          intro hnil
          rw [hnil] at hw
          simp [List.isEmpty] at hw
        have hchild : ∀ c ∈ cs, (fromLayout c).pane_iter.length = c.leafCount := by
          intro c hc
          have hlt : sizeOf c < n := by
            have h1 := List.sizeOf_lt_of_mem hc
            subst hn
            simp only [Layout.h.sizeOf_spec]
            omega
          exact ih (sizeOf c) hlt c (wfListB_mem hw.2 c hc) rfl
        have hne : cs.map (fun c => ((c.width : Int), fromLayout c)) ≠ [] := by
          simpa using hne2
        rw [show fromLayout (.h g cs) = buildH (pairsH cs) from by
              simp [fromLayout],
            pairsH_eq, buildH_panes _ hne]
        simp only [List.length_flatten, List.map_map, Layout.leafCount,
          leafCountList_eq_sum]
        congr 1
        apply List.map_congr_left
        intro c hc
        simpa using hchild c hc
    | v g cs =>
        simp only [Layout.wfB, Bool.and_eq_true] at hw
        have hne2 : cs ≠ [] := by
          intro hnil
          rw [hnil] at hw
          simp [List.isEmpty] at hw
        have hchild : ∀ c ∈ cs, (fromLayout c).pane_iter.length = c.leafCount := by
          intro c hc
          have hlt : sizeOf c < n := by
            have h1 := List.sizeOf_lt_of_mem hc
            subst hn
            simp only [Layout.v.sizeOf_spec]
            omega
          exact ih (sizeOf c) hlt c (wfListB_mem hw.2 c hc) rfl
        have hne : cs.map (fun c => ((c.height : Int), fromLayout c)) ≠ [] := by
          simpa using hne2
        rw [show fromLayout (.v g cs) = buildV (pairsV cs) from by
              simp [fromLayout],
            pairsV_eq, buildV_panes _ hne]
        simp only [List.length_flatten, List.map_map, Layout.leafCount,
          leafCountList_eq_sum]
        congr 1
        apply List.map_congr_left
        intro c hc
        simpa using hchild c hc

/-- Concrete well-formed geometry tree for the C6 witness. -/
def c6Layout : Layout :=
  .v ⟨⟨200, 112⟩, 0, 0⟩
    [.pane ⟨⟨200, 56⟩, 0, 0⟩,
     .h ⟨⟨200, 55⟩, 0, 57⟩ [.pane ⟨⟨100, 55⟩, 0, 57⟩, .pane ⟨⟨99, 55⟩, 101, 57⟩]]

/-- C6 witness: the pane-count theorem applied to a concrete well-formed
geometry tree with three leaves. -/
theorem fromLayout_preserves_pane_count_witness :
    c6Layout.wfB = true ∧
      (fromLayout c6Layout).pane_iter.length = c6Layout.leafCount :=
  ⟨by decide, fromLayout_preserves_pane_count c6Layout (by decide)⟩

/-- C10.  The geometry-to-split conversion is total also on the trees the
descriptor grammar can never produce: a split node with exactly one child
converts to the conversion of that child itself (no enclosing split node,
no size hint), and a split node with an empty child list converts to the
default single pane. -/
theorem fromLayout_degenerate_children (g : PaneGeom) (c : Layout) :
    fromLayout (.h g [c]) = fromLayout c ∧
      fromLayout (.v g [c]) = fromLayout c ∧
      fromLayout (.h g []) = Split.pane {} ∧
      fromLayout (.v g []) = Split.pane {} := by
  refine ⟨?_, ?_, ?_, ?_⟩ <;>
    simp [fromLayout, pairsH, pairsV, buildH, buildV, hGo, vGo]

/-! ## Tabular state parser (`parser::parse_line` of `src/tmux/import.rs`) -/

/-- Quoting mode of the shell-word splitter. -/
inductive QuoteMode where
  | plain
  | single
  | double
deriving DecidableEq, Repr

/-- Append a finished word (if a word is open) to the word list. -/
def flushWord (cur : Option (List Char)) (acc : List String) : List String :=
  match cur with
  | none => acc
  | some w => String.mk w.reverse :: acc

/-- Modelled from the spec: one step machine of the `shellwords::split`
word splitter (an external crate, not part of this repository's sources).
Following §4.5 — lines are "shell-word-split", "shell-style quoting" is
unquoted on field extraction, and "mismatched quotes" fail — words are
separated by spaces/tabs; single or double quotes group characters with
the quotes dropped; a backslash escapes the next character; an
unterminated quote or a dangling backslash is the mismatched-quotes
error (`none`).  The fuel argument only bounds the step count; every
step consumes at least one input character, so `length + 1` fuel is
never exhausted. -/
def shellSplitGo :
    Nat → List Char → QuoteMode → Option (List Char) → List String →
      Option (List String)
  | 0, _, _, _, _ => none
  | _ + 1, [], .plain, cur, acc => some (flushWord cur acc).reverse
  | _ + 1, [], .single, _, _ => none
  | _ + 1, [], .double, _, _ => none
  | fuel + 1, c :: rest, .plain, cur, acc =>
      if c = ' ' || c = '\t' then
        shellSplitGo fuel rest .plain none (flushWord cur acc)
      else if c = '\'' then
        shellSplitGo fuel rest .single (some (cur.getD [])) acc
      else if c = '"' then
        shellSplitGo fuel rest .double (some (cur.getD [])) acc
      else if c = '\\' then
        match rest with
        | [] => none
        | e :: rest2 => shellSplitGo fuel rest2 .plain (some (e :: cur.getD [])) acc
      else
        shellSplitGo fuel rest .plain (some (c :: cur.getD [])) acc
  | fuel + 1, c :: rest, .single, cur, acc =>
      if c = '\'' then shellSplitGo fuel rest .plain cur acc
      else shellSplitGo fuel rest .single (some (c :: cur.getD [])) acc
  | fuel + 1, c :: rest, .double, cur, acc =>
      if c = '"' then shellSplitGo fuel rest .plain cur acc
      else shellSplitGo fuel rest .double (some (c :: cur.getD [])) acc

/-- Modelled from the spec: `shellwords::split` (see `shellSplitGo`);
`none` is the `MismatchedQuotes` error. -/
def shellSplit (line : String) : Option (List String) :=
  shellSplitGo (line.data.length + 1) line.data .plain none []

/-- Identifier parsers `session_id` / `window_id` / `pane_id`:
`all_consuming(map(preceded(tag(<sigil>), u32), _))` — the sigil
character, then a `u32` (`pU32`, the same `nom` numeral rule as the
layout parser), consuming the whole word. -/
def parseIdWith (sigil : Char) (w : String) : Except String Nat :=
  match w.data with
  | c :: rest =>
      if c = sigil then
        match pU32 rest with
        | some (n, []) => .ok n
        | some (_, _ :: _) => .error "id parse error: Eof"
        | none => .error "id parse error"
      else .error "id parse error: Tag"
  | [] => .error "id parse error: Tag"

/-- Rust `str::parse` for an unsigned integer type with maximum value
`maxVal` (`u32` or `u8`): an optional leading `+`, then one or more
digits, failing on any other character and on overflow. -/
def parseUInt (maxVal : Nat) (w : String) : Except String Nat :=
  let ds := match w.data with
            | '+' :: rest => rest
            | l => l
  if !ds.isEmpty && ds.all Char.isDigit then
    if digitsToNat ds ≤ maxVal then .ok (digitsToNat ds)
    else .error "number too large to fit in target type"
  else .error "invalid digit found in string"

/-- Largest `u8` value. -/
def u8Max : Nat := 255

/-- One parsed line of the tabular state (`parser::PaneInfo`). -/
structure PaneInfo where
  session_id : Nat
  window_id : Nat
  pane_id : Nat
  session_name : String
  session_cwd : String
  window_index : Nat
  window_name : String
  window_active : Bool
  window_layout : Layout
  pane_index : Nat
  pane_active : Bool
  pane_cwd : String

/-- `parser::parse_line` from `src/tmux/import.rs`: shell-word-split the
line, take eleven mandatory fields in order (`$`/`@`/`%` identifiers,
two free-text names and cwd, `u32` indices, `u8` active flags, the
layout descriptor), and default the optional twelfth field (pane cwd) to
the empty string.  The Rust code pulls words one at a time with
`next_word` and fails with "missing word" on exhaustion; matching the
word list against an eleven-element pattern is the same computation. -/
def parse_line (line : String) : Except String PaneInfo :=
  match shellSplit line with
  | none => .error "missing quotes"
  | some ws =>
      match ws with
      | sid :: wid :: pid :: sname :: scwd :: widx :: wname :: wact :: wlay ::
          pidx :: pact :: rest => do
          let session_id ← parseIdWith '$' sid
          let window_id ← parseIdWith '@' wid
          let pane_id ← parseIdWith '%' pid
          let window_index ← parseUInt u32Max widx
          let window_active ← parseUInt u8Max wact
          let window_layout ← parse_layout wlay
          let pane_index ← parseUInt u32Max pidx
          let pane_active ← parseUInt u8Max pact
          .ok { session_id := session_id, window_id := window_id,
                pane_id := pane_id, session_name := sname,
                session_cwd := scwd, window_index := window_index,
                window_name := wname, window_active := window_active != 0,
                window_layout := window_layout, pane_index := pane_index,
                pane_active := pane_active != 0, pane_cwd := rest.headD "" }
      | _ => .error "missing word"

/-- Identifier shape `<sigil>N` with `N` an unsigned 32-bit numeral. -/
def idShapeB (sigil : Char) (w : String) : Bool :=
  match w.data with
  | c :: rest =>
      c == sigil && !rest.isEmpty && rest.all Char.isDigit &&
        decide (digitsToNat rest ≤ u32Max)
  | [] => false

/-- Unsigned-numeral shape fitting `maxVal`: optional `+`, digits, no
overflow. -/
def uintShapeB (maxVal : Nat) (w : String) : Bool :=
  let ds := match w.data with
            | '+' :: rest => rest
            | l => l
  !ds.isEmpty && ds.all Char.isDigit && decide (digitsToNat ds ≤ maxVal)

theorem pU32_consume_all (l : List Char) (n : Nat) :
    pU32 l = some (n, []) ↔
      (!l.isEmpty && l.all Char.isDigit && decide (digitsToNat l ≤ u32Max)) = true
        ∧ digitsToNat l = n := by
  unfold pU32 pDigit1
  rw [List.span_eq_take_drop]
  constructor
  · intro h
    rcases hl : l.takeWhile Char.isDigit with _ | ⟨d, ds⟩
    · rw [hl] at h
      simp at h
    · rw [hl] at h
      by_cases hle : digitsToNat (d :: ds) ≤ u32Max
      · simp only [hle, if_pos, Option.some.injEq, Prod.mk.injEq] at h
        have hdrop : l.dropWhile Char.isDigit = [] := h.2
        have hall : ∀ x ∈ l, Char.isDigit x := List.dropWhile_eq_nil_iff.mp hdrop
        have htake : l.takeWhile Char.isDigit = l :=
          List.takeWhile_eq_self_iff.mpr hall
        rw [htake] at hl
        subst hl
        refine ⟨?_, h.1⟩
        simp only [Bool.and_eq_true, List.isEmpty_cons, Bool.not_false,
          decide_eq_true_eq, List.all_eq_true]
        exact ⟨⟨trivial, fun x hx => hall x hx⟩, hle⟩
      · simp [hle] at h
  · intro ⟨h, hn⟩
    simp only [Bool.and_eq_true, List.isEmpty_eq_true, Bool.not_eq_true',
      decide_eq_true_eq, List.all_eq_true] at h
    have hall : ∀ x ∈ l, Char.isDigit x := by
      intro x hx
      exact h.1.2 x hx
    have htake : l.takeWhile Char.isDigit = l :=
      List.takeWhile_eq_self_iff.mpr hall
    have hdrop : l.dropWhile Char.isDigit = [] :=
      List.dropWhile_eq_nil_iff.mpr hall
    rw [htake, hdrop]
    rcases l with _ | ⟨d, ds⟩
    · simp at h
    · simp only [hn] at h ⊢
      simp [h.2]

theorem parseIdWith_isOk (sigil : Char) (w : String) :
    (parseIdWith sigil w).isOk = idShapeB sigil w := by
  unfold parseIdWith idShapeB
  rcases w.data with _ | ⟨c, rest⟩
  · rfl
  · by_cases hc : c = sigil
    · subst hc
      simp only [if_pos rfl, beq_self_eq_true, Bool.true_and]
      rcases hp : pU32 rest with _ | ⟨n, r2⟩
      · rcases hsh : (!rest.isEmpty && rest.all Char.isDigit &&
            decide (digitsToNat rest ≤ u32Max)) with _ | _
        · rfl
        · exact absurd ((pU32_consume_all rest (digitsToNat rest)).mpr
            ⟨hsh, rfl⟩) (by simp [hp])
      · rcases r2 with _ | ⟨x, xs⟩
        · have := (pU32_consume_all rest n).mp hp
          simp [Except.isOk, Except.toBool, this.1]
        · rcases hsh : (!rest.isEmpty && rest.all Char.isDigit &&
              decide (digitsToNat rest ≤ u32Max)) with _ | _
          · rfl
          · have h2 := (pU32_consume_all rest (digitsToNat rest)).mpr ⟨hsh, rfl⟩
            rw [hp] at h2
            exact absurd h2 (by simp)
    · simp [hc, Except.isOk, Except.toBool]

theorem parseUInt_isOk (maxVal : Nat) (w : String) :
    (parseUInt maxVal w).isOk = uintShapeB maxVal w := by
  unfold parseUInt uintShapeB
  split <;> dsimp only
  all_goals split
  all_goals try split
  all_goals simp_all [Except.isOk, Except.toBool]

theorem except_bind_ok {ε α β : Type} {x : Except ε α} {f : α → Except ε β}
    {b : β} (h : x >>= f = .ok b) : ∃ a, x = .ok a ∧ f a = .ok b := by
  cases x with
  | error e => simp [Bind.bind, Except.bind] at h
  | ok a => exact ⟨a, rfl, by simpa [Bind.bind, Except.bind] using h⟩

theorem parse_line_ok_shape (line : String) (info : PaneInfo)
    (h : parse_line line = .ok info) :
    ∃ ws, shellSplit line = some ws ∧ 11 ≤ ws.length ∧
      idShapeB '$' (ws.getD 0 "") = true ∧
      idShapeB '@' (ws.getD 1 "") = true ∧
      idShapeB '%' (ws.getD 2 "") = true ∧
      uintShapeB u32Max (ws.getD 5 "") = true ∧
      uintShapeB u8Max (ws.getD 7 "") = true ∧
      uintShapeB u32Max (ws.getD 9 "") = true ∧
      uintShapeB u8Max (ws.getD 10 "") = true ∧
      (ws.length = 11 → info.pane_cwd = "") := by
  unfold parse_line at h
  split at h
  · cases h
  · rename_i ws hs
    split at h
    · rename_i sid wid pid sname scwd widx wname wact wlay pidx pact rest
      obtain ⟨n1, h1, h⟩ := except_bind_ok h
      obtain ⟨n2, h2, h⟩ := except_bind_ok h
      obtain ⟨n3, h3, h⟩ := except_bind_ok h
      obtain ⟨n4, h4, h⟩ := except_bind_ok h
      obtain ⟨n5, h5, h⟩ := except_bind_ok h
      obtain ⟨n6, h6, h⟩ := except_bind_ok h
      obtain ⟨n7, h7, h⟩ := except_bind_ok h
      obtain ⟨n8, h8, h⟩ := except_bind_ok h
      cases h
      refine ⟨_, hs, ?_, ?_, ?_, ?_, ?_, ?_, ?_, ?_, ?_⟩
      · simp
      · have hid := parseIdWith_isOk '$' sid
        rw [h1] at hid
        simpa [List.getD] using hid.symm
      · have hid := parseIdWith_isOk '@' wid
        rw [h2] at hid
        simpa [List.getD] using hid.symm
      · have hid := parseIdWith_isOk '%' pid
        rw [h3] at hid
        simpa [List.getD] using hid.symm
      · have hu := parseUInt_isOk u32Max widx
        rw [h4] at hu
        simpa [List.getD] using hu.symm
      · have hu := parseUInt_isOk u8Max wact
        rw [h5] at hu
        simpa [List.getD] using hu.symm
      · have hu := parseUInt_isOk u32Max pidx
        rw [h7] at hu
        simpa [List.getD] using hu.symm
      · have hu := parseUInt_isOk u8Max pact
        rw [h8] at hu
        simpa [List.getD] using hu.symm
      · intro hlen
        simp only [List.length_cons] at hlen
        have : rest = [] := List.eq_nil_of_length_eq_zero (by omega)
        subst this
        rfl
    · cases h

/-- C8.  Field discipline of the tabular state-line parser: a line is
shell-word-split into at most 12 used fields where the 12th (pane cwd)
may be missing and then defaults to the empty string; the parse is an
error whenever the shell quoting is mismatched, whenever fewer than 11
fields are present, whenever one of the three identifier fields does not
have the shape `$N` / `@N` / `%N` with `N` an unsigned 32-bit numeral,
and whenever one of the integer fields (window index, pane index as
`u32`; the activity flags as `u8`) is malformed or overflows its type. -/
theorem parse_line_field_discipline (line : String) :
    (shellSplit line = none → (parse_line line).isOk = false) ∧
      (∀ ws, shellSplit line = some ws →
        (ws.length < 11 → (parse_line line).isOk = false) ∧
        (idShapeB '$' (ws.getD 0 "") = false → (parse_line line).isOk = false) ∧
        (idShapeB '@' (ws.getD 1 "") = false → (parse_line line).isOk = false) ∧
        (idShapeB '%' (ws.getD 2 "") = false → (parse_line line).isOk = false) ∧
        (uintShapeB u32Max (ws.getD 5 "") = false → (parse_line line).isOk = false) ∧
        (uintShapeB u8Max (ws.getD 7 "") = false → (parse_line line).isOk = false) ∧
        (uintShapeB u32Max (ws.getD 9 "") = false → (parse_line line).isOk = false) ∧
        (uintShapeB u8Max (ws.getD 10 "") = false → (parse_line line).isOk = false) ∧
        (∀ info, parse_line line = .ok info → ws.length = 11 →
          info.pane_cwd = "")) := by
  have notOk : ∀ P : Prop, (∀ info, parse_line line = .ok info → P) → ¬P →
      (parse_line line).isOk = false := by
    intro P hP hnP
    cases hpl : parse_line line with
    | ok info => exact absurd (hP info hpl) hnP
    | error e => rfl
  constructor
  · intro hnone
    refine notOk (∃ ws, shellSplit line = some ws) ?_ ?_
    · intro info hinfo
      obtain ⟨ws, hws, _⟩ := parse_line_ok_shape line info hinfo
      exact ⟨ws, hws⟩
    · rintro ⟨ws, hws⟩
      rw [hnone] at hws
      cases hws
  · intro ws hws
    have master : ∀ info, parse_line line = .ok info →
        11 ≤ ws.length ∧
        idShapeB '$' (ws.getD 0 "") = true ∧
        idShapeB '@' (ws.getD 1 "") = true ∧
        idShapeB '%' (ws.getD 2 "") = true ∧
        uintShapeB u32Max (ws.getD 5 "") = true ∧
        uintShapeB u8Max (ws.getD 7 "") = true ∧
        uintShapeB u32Max (ws.getD 9 "") = true ∧
        uintShapeB u8Max (ws.getD 10 "") = true ∧
        (ws.length = 11 → info.pane_cwd = "") := by
      intro info hinfo
      obtain ⟨ws2, hws2, hrest⟩ := parse_line_ok_shape line info hinfo
      rw [hws] at hws2
      cases hws2
      exact hrest
    refine ⟨?_, ?_, ?_, ?_, ?_, ?_, ?_, ?_, ?_⟩
    · intro hlen
      exact notOk _ (fun info hi => (master info hi).1) (by omega)
    · intro hshape
      exact notOk _ (fun info hi => (master info hi).2.1) (by rw [hshape]; simp)
    · intro hshape
      exact notOk _ (fun info hi => (master info hi).2.2.1) (by rw [hshape]; simp)
    · intro hshape
      exact notOk _ (fun info hi => (master info hi).2.2.2.1) (by rw [hshape]; simp)
    · intro hshape
      exact notOk _ (fun info hi => (master info hi).2.2.2.2.1) (by rw [hshape]; simp)
    · intro hshape
      exact notOk _ (fun info hi => (master info hi).2.2.2.2.2.1) (by rw [hshape]; simp)
    · intro hshape
      exact notOk _ (fun info hi => (master info hi).2.2.2.2.2.2.1)
        (by rw [hshape]; simp)
    · intro hshape
      exact notOk _ (fun info hi => (master info hi).2.2.2.2.2.2.2.1)
        (by rw [hshape]; simp)
    · intro info hinfo hlen
      exact (master info hinfo).2.2.2.2.2.2.2.2 hlen

/-- C8 witness: a two-word line fails the eleven-field requirement, so
the parser errors on it. -/
theorem parse_line_field_discipline_witness :
    (parse_line "a b").isOk = false :=
  (((parse_line_field_discipline "a b").2 ["a", "b"] (by decide)).1 (by decide))
